import Mathlib

set_option maxRecDepth 100000

/-!
Verification of the TOTP core (src/totp.rs): a shallow embedding of the
per-seed HMAC-SHA1 token transform, six-seed compound token generation and
the sliding-window verifier, together with proofs of the specified
properties.

Machine integers are modelled as `Nat` (unsigned) and `Int` (signed) with
explicit reduction modulo `2^32` / `2^64` where the Rust code wraps.
Rust panics (unguarded division by zero) are modelled as `none`.
Byte strings (Rust `&str` seeds via `as_bytes`) are `List Nat` with
entries below 256.
-/

/-- Reduce modulo `2^32`, the carrier of Rust `u32` arithmetic. -/
def w32 (n : Nat) : Nat := n % 4294967296

/-- Left-rotate a 32-bit word by `b` bits. -/
def rotl (b n : Nat) : Nat := w32 ((n <<< b) ||| (n >>> (32 - b)))

/-- SHA-1 round constant for round `t`. -/
def sha1K (t : Nat) : Nat :=
  if t < 20 then 0x5A827999
  else if t < 40 then 0x6ED9EBA1
  else if t < 60 then 0x8F1BBCDC
  else 0xCA62C1D6

/-- SHA-1 round mixing function for round `t`. -/
def sha1F (t b c d : Nat) : Nat :=
  if t < 20 then (b &&& c) ||| ((b ^^^ 0xFFFFFFFF) &&& d)
  else if t < 40 then b ^^^ c ^^^ d
  else if t < 60 then (b &&& c) ||| (b &&& d) ||| (c &&& d)
  else b ^^^ c ^^^ d

/-- One SHA-1 round: state is `(t, a, b, c, d, e)`, input is schedule word. -/
def sha1Round (st : Nat × Nat × Nat × Nat × Nat × Nat) (wt : Nat) :
    Nat × Nat × Nat × Nat × Nat × Nat :=
  match st with
  | (t, a, b, c, d, e) =>
    let tmp := w32 (rotl 5 a + sha1F t b c d + e + sha1K t + wt)
    (t + 1, tmp, a, rotl 30 b, c, d)

/-- Extend the 16-word block by `k` more schedule words. -/
def sha1Sched : Nat → List Nat → List Nat
  | 0, acc => acc
  | k + 1, acc =>
    let n := acc.length
    let x := rotl 1 ((acc.getD (n - 3) 0) ^^^ (acc.getD (n - 8) 0) ^^^
      (acc.getD (n - 14) 0) ^^^ (acc.getD (n - 16) 0))
    sha1Sched k (acc ++ [x])

/-- Compress one 16-word block into the 5-word chaining state. -/
def sha1Compress (h : Nat × Nat × Nat × Nat × Nat) (block : List Nat) :
    Nat × Nat × Nat × Nat × Nat :=
  match h with
  | (h0, h1, h2, h3, h4) =>
    let ws := sha1Sched 64 block
    match ws.foldl sha1Round (0, h0, h1, h2, h3, h4) with
    | (_, a, b, c, d, e) =>
      (w32 (h0 + a), w32 (h1 + b), w32 (h2 + c), w32 (h3 + d), w32 (h4 + e))

/-- Big-endian 4-byte group to a 32-bit word. -/
def bytesToWords : List Nat → List Nat
  | a :: b :: c :: d :: rest => (((a * 256 + b) * 256 + c) * 256 + d) :: bytesToWords rest
  | _ => []

/-- Split a word list into 16-word blocks (input length a multiple of 16). -/
def toBlocks : List Nat → List (List Nat)
  | w0 :: w1 :: w2 :: w3 :: w4 :: w5 :: w6 :: w7 ::
    w8 :: w9 :: w10 :: w11 :: w12 :: w13 :: w14 :: w15 :: rest =>
      [w0, w1, w2, w3, w4, w5, w6, w7, w8, w9, w10, w11, w12, w13, w14, w15] ::
        toBlocks rest
  | _ => []

/-- Big-endian bytes of a 32-bit word. -/
def word4 (n : Nat) : List Nat :=
  [(n >>> 24) &&& 255, (n >>> 16) &&& 255, (n >>> 8) &&& 255, n &&& 255]

/-- Big-endian 8-byte encoding of a 64-bit value (Rust `u64::to_be_bytes`). -/
def be8 (n : Nat) : List Nat :=
  [(n >>> 56) &&& 255, (n >>> 48) &&& 255, (n >>> 40) &&& 255, (n >>> 32) &&& 255,
   (n >>> 24) &&& 255, (n >>> 16) &&& 255, (n >>> 8) &&& 255, n &&& 255]

/-- Merkle-Damgard padding of SHA-1: append `0x80`, zeros, 64-bit bit length. -/
def sha1Pad (msg : List Nat) : List Nat :=
  let len := msg.length
  let zeros := (120 - ((len + 1) % 64)) % 64
  msg ++ [0x80] ++ List.replicate zeros 0 ++ be8 (8 * len)

/-- SHA-1 of a byte list, as the 20-byte digest. -/
def sha1 (msg : List Nat) : List Nat :=
  let blocks := toBlocks (bytesToWords (sha1Pad msg))
  let h := blocks.foldl sha1Compress
    (0x67452301, 0xEFCDAB89, 0x98BADCFE, 0x10325476, 0xC3D2E1F0)
  word4 h.1 ++ word4 h.2.1 ++ word4 h.2.2.1 ++ word4 h.2.2.2.1 ++ word4 h.2.2.2.2

/-- HMAC-SHA1 (RFC 2104) of `msg` keyed by `key`, as the 20-byte digest. -/
def hmacSha1 (key msg : List Nat) : List Nat :=
  let k0 := if 64 < key.length then sha1 key else key
  let kp := k0 ++ List.replicate (64 - k0.length) 0
  let ipad := kp.map (fun b => b ^^^ 0x36)
  let opad := kp.map (fun b => b ^^^ 0x5C)
  sha1 (opad ++ sha1 (ipad ++ msg))

/-! ## The TOTP core (src/totp.rs) -/

/-- Decimal digits of `n`, most significant first, with explicit fuel
(20 digits cover every `u64`). -/
def decChars : Nat → Nat → List Char
  | 0, _ => []
  | fuel + 1, n =>
    if n < 10 then [Nat.digitChar n]
    else decChars fuel (n / 10) ++ [Nat.digitChar (n % 10)]

/-- Decimal representation of `n` as characters, most significant first. -/
def natChars (n : Nat) : List Char := decChars 20 n

/-- Rust `format!("\x7b:06\x7d", n)`: decimal, zero-padded to width 6. -/
def format06 (n : Nat) : String :=
  String.mk (List.replicate (6 - (natChars n).length) '0' ++ natChars n)

/-- The pure body of `generate_token` after the division (src/totp.rs lines
29-37): HMAC-SHA1 of the 8-byte big-endian counter keyed by the seed,
RFC 4226 dynamic truncation, reduction modulo 1_000_000. -/
def rawToken (seed : List Nat) (counter : Nat) : Nat :=
  let hash := hmacSha1 seed (be8 counter)
  let offset := (hash.getD (hash.length - 1) 0) &&& 0x0F
  let code := (((hash.getD offset 0) &&& 0x7F) <<< 24) |||
    (((hash.getD (offset + 1) 0) &&& 0xFF) <<< 16) |||
    (((hash.getD (offset + 2) 0) &&& 0xFF) <<< 8) |||
    ((hash.getD (offset + 3) 0) &&& 0xFF)
  code % 1000000

/-- `generate_token` (src/totp.rs lines 27-38). The source performs
`time / window` unguarded; on `window == 0` Rust `u64` division panics,
modelled here as `none`. -/
def generate_token (seed : List Nat) (time window : Nat) : Option Nat :=
  if window = 0 then none else some (rawToken seed (time / window))

/-- `generate_combined_token` (src/totp.rs lines 59-65): format the six
per-seed tokens with `format!("\x7b:06\x7d", _)` in seed order and join
them with `"-"`. `none` propagates the per-seed panic. -/
def generate_combined_token (seeds : Fin 6 → List Nat) (time window : Nat) :
    Option String := do
  let t0 ← generate_token (seeds 0) time window
  let t1 ← generate_token (seeds 1) time window
  let t2 ← generate_token (seeds 2) time window
  let t3 ← generate_token (seeds 3) time window
  let t4 ← generate_token (seeds 4) time window
  let t5 ← generate_token (seeds 5) time window
  pure (String.intercalate "-"
    [format06 t0, format06 t1, format06 t2, format06 t3, format06 t4, format06 t5])

/-- The `u64` modulus. -/
def u64Mod : Nat := 2 ^ 64

/-- Half the `u64` range: first value that is negative as an `i64`. -/
def i64Half : Nat := 2 ^ 63

/-- Rust `as i64` cast of a `u64` value: reinterpret the bits. -/
def toI64 (n : Nat) : Int :=
  let m := n % u64Mod
  if m < i64Half then (m : Int) else (m : Int) - (u64Mod : Int)

/-- Wrapping `i64` arithmetic normal form: the representative of
`x mod 2^64` in `[-2^63, 2^63)`. -/
def wrapI64 (x : Int) : Int :=
  let m := x % (u64Mod : Int)
  if m < (i64Half : Int) then m else m - (u64Mod : Int)

/-- Rust `u64::wrapping_add_signed`: add a signed delta, wrapping mod `2^64`. -/
def wrapping_add_signed (t : Nat) (d : Int) : Nat :=
  (((t : Int) + d) % (u64Mod : Int)).toNat

/-- The verifier's `delta` (src/totp.rs line 98):
`if unit == "s" \x7b 1 \x7d else \x7b 1 \x7d`. -/
def deltaOf (unit : String) : Nat := if unit = "s" then 1 else 1

/-- Adjusted time for one step of the verifier (src/totp.rs lines 112-116):
`if step == 0 \x7b time \x7d else \x7b time.wrapping_add_signed(step * (window * delta) as i64) \x7d`. -/
def adjusted_time (time : Nat) (step : Int) (window delta : Nat) : Nat :=
  if step = 0 then time
  else wrapping_add_signed time (wrapI64 (step * toI64 (window * delta)))

/-- The step-offset list (src/totp.rs lines 99-109): `[0]` for
`allowed_windows` 0 or 1, else `[0, 1, -1, ..., n-1, -(n-1)]`. -/
def steps (allowed_windows : Nat) : List Int :=
  match allowed_windows with
  | 0 => [0]
  | 1 => [0]
  | n => 0 :: (List.range (n - 1)).flatMap (fun i => [(i : Int) + 1, -((i : Int) + 1)])

/-- The verification loop (src/totp.rs lines 111-122): regenerate at each
adjusted time, return `true` on the first exact string match, `false` when
the list is exhausted; `none` propagates the panic on `window == 0`. -/
def verifyLoop (seeds : Fin 6 → List Nat) (time : Nat) (token : String)
    (window delta : Nat) : List Int → Option Bool
  | [] => some false
  | step :: rest =>
    let t := adjusted_time time step window delta
    match generate_combined_token seeds t window with
    | none => none
    | some g => if g = token then some true else verifyLoop seeds time token window delta rest

/-- `verify_combined_token` (src/totp.rs lines 90-123). -/
def verify_combined_token (seeds : Fin 6 → List Nat) (time : Nat) (token : String)
    (window : Nat) (allowed_windows : Nat) (unit : String) : Option Bool :=
  verifyLoop seeds time token window (deltaOf unit) (steps allowed_windows)

/-! ## Helper lemmas -/

/-- The compound token string produced when `window > 0`. -/
def combinedStr (seeds : Fin 6 → List Nat) (time window : Nat) : String :=
  String.intercalate "-"
    [format06 (rawToken (seeds 0) (time / window)),
     format06 (rawToken (seeds 1) (time / window)),
     format06 (rawToken (seeds 2) (time / window)),
     format06 (rawToken (seeds 3) (time / window)),
     format06 (rawToken (seeds 4) (time / window)),
     format06 (rawToken (seeds 5) (time / window))]

/-- Split a character list at every `'-'` (observer used to state the
group structure of compound tokens). -/
def splitDash : List Char → List (List Char)
  | [] => [[]]
  | c :: rest =>
    if c = '-' then [] :: splitDash rest
    else
      match splitDash rest with
      | [] => [[c]]
      | g :: gs => (c :: g) :: gs

/-- The per-seed token following the spec's words (§4.1, RFC 4226 dynamic
truncation): counter `time / window`, HMAC over the 8-byte big-endian
counter keyed by the seed, `offset = hash[19] & 0x0F`,
`code32 = (hash[offset] & 0x7F) << 24 | hash[offset+1] << 16 |
hash[offset+2] << 8 | hash[offset+3]`, result `code32 mod 1_000_000`
zero-padded to 6 decimal digits. -/
def rfc4226_reference_token (seed : List Nat) (time window : Nat) : String :=
  let counter := time / window
  let hash := hmacSha1 seed (be8 counter)
  let offset := (hash.getD 19 0) &&& 0x0F
  let code32 := (((hash.getD offset 0) &&& 0x7F) <<< 24) |||
    ((hash.getD (offset + 1) 0) <<< 16) |||
    ((hash.getD (offset + 2) 0) <<< 8) |||
    (hash.getD (offset + 3) 0)
  format06 (code32 % 1000000)

theorem generate_token_pos (seed : List Nat) (time window : Nat) (hw : 0 < window) :
    generate_token seed time window = some (rawToken seed (time / window)) := by
  unfold generate_token
  rw [if_neg (Nat.pos_iff_ne_zero.mp hw)]

theorem generate_combined_pos (seeds : Fin 6 → List Nat) (time window : Nat)
    (hw : 0 < window) :
    generate_combined_token seeds time window = some (combinedStr seeds time window) := by
  unfold generate_combined_token combinedStr
  simp [generate_token_pos _ _ _ hw]

theorem deltaOf_eq_one (unit : String) : deltaOf unit = 1 := by
  unfold deltaOf
  exact ite_self 1

theorem adjusted_time_zero (time window delta : Nat) :
    adjusted_time time 0 window delta = time := by
  unfold adjusted_time
  rw [if_pos rfl]

theorem steps_eq_cons (n : Nat) : steps n = 0 :: (steps n).tail := by
  match n with
  | 0 => rfl
  | 1 => rfl
  | m + 2 => rfl

theorem verifyLoop_eq_any (seeds : Fin 6 → List Nat) (time : Nat) (token : String)
    (window delta : Nat) (hw : 0 < window) (lst : List Int) :
    verifyLoop seeds time token window delta lst =
      some (lst.any fun s =>
        decide (combinedStr seeds (adjusted_time time s window delta) window = token)) := by
  induction lst with
  | nil => rfl
  | cons step rest ih =>
    simp only [verifyLoop]
    rw [generate_combined_pos _ _ _ hw]
    by_cases h : combinedStr seeds (adjusted_time time step window delta) window = token
    · simp [h]
    · simp only [List.any_cons, h, decide_False, Bool.false_or, if_neg h]
      exact ih

theorem verifyLoop_true_iff (seeds : Fin 6 → List Nat) (time : Nat) (token : String)
    (window delta : Nat) (hw : 0 < window) (lst : List Int) :
    verifyLoop seeds time token window delta lst = some true ↔
      ∃ s ∈ lst, combinedStr seeds (adjusted_time time s window delta) window = token := by
  rw [verifyLoop_eq_any _ _ _ _ _ hw]
  simp

theorem mem_steps_iff (n : Nat) (hn : 1 ≤ n) (k : Int) :
    k ∈ steps n ↔ k.natAbs ≤ n - 1 := by
  match n with
  | 1 =>
    unfold steps
    simp only [List.mem_singleton]
    omega
  | m + 2 =>
    unfold steps
    simp only [List.mem_cons, List.mem_flatMap, List.mem_range]
    constructor
    · rintro (rfl | ⟨i, hi, hk⟩)
      · omega
      · simp only [List.mem_cons, List.mem_singleton, List.not_mem_nil, or_false] at hk
        rcases hk with rfl | rfl <;> simp <;> omega
    · intro h
      by_cases hk : k = 0
      · exact Or.inl hk
      · refine Or.inr ⟨k.natAbs - 1, by omega, ?_⟩
        simp only [List.mem_cons, List.mem_singleton, List.not_mem_nil, or_false]
        omega

theorem toI64_modEq (n : Nat) : Int.ModEq (u64Mod : Int) (toI64 n) (n : Int) := by
  unfold toI64 Int.ModEq
  simp only [u64Mod, i64Half]
  push_cast
  split <;> omega

theorem wrapI64_modEq (x : Int) : Int.ModEq (u64Mod : Int) (wrapI64 x) x := by
  unfold wrapI64 Int.ModEq
  simp only [u64Mod, i64Half]
  push_cast
  split <;> omega

theorem adjusted_time_eq (time : Nat) (step : Int) (window delta : Nat)
    (ht : time < u64Mod) :
    adjusted_time time step window delta =
      (((time : Int) + step * ((window * delta : Nat) : Int)) % (u64Mod : Int)).toNat := by
  have hM : (0 : Int) < (u64Mod : Int) := by
    simp only [u64Mod]; positivity
  unfold adjusted_time
  by_cases h : step = 0
  · subst h
    rw [if_pos rfl]
    rw [Int.zero_mul, Int.add_zero, Int.emod_eq_of_lt (by positivity) (by exact_mod_cast ht)]
    simp
  · rw [if_neg h]
    unfold wrapping_add_signed
    congr 1
    have hmm : Int.ModEq (u64Mod : Int)
        (wrapI64 (step * toI64 (window * delta)))
        (step * ((window * delta : Nat) : Int)) :=
      (wrapI64_modEq _).trans (Int.ModEq.mul_left step (toI64_modEq _))
    exact Int.ModEq.add_left _ hmm

/-! ## Token format lemmas -/

theorem rawToken_lt (seed : List Nat) (c : Nat) : rawToken seed c < 1000000 := by
  unfold rawToken
  exact Nat.mod_lt _ (by norm_num)

theorem decChars_length_le : ∀ (fuel k n : Nat), n < 10 ^ k → 1 ≤ k → k ≤ fuel →
    (decChars fuel n).length ≤ k := by
  intro fuel
  induction fuel with
  | zero => intro k n _ h1 h2; omega
  | succ f ih =>
    intro k n hn h1 hf
    unfold decChars
    by_cases h10 : n < 10
    · rw [if_pos h10]
      simpa using h1
    · rw [if_neg h10]
      have hk2 : 2 ≤ k := by
        by_contra hlt
        have hk1 : k = 1 := by omega
        subst hk1
        simp at hn
        omega
      have hdiv : n / 10 < 10 ^ (k - 1) := by
        apply Nat.div_lt_of_lt_mul
        have : 10 ^ (k - 1) * 10 = 10 ^ k := by
          rw [← pow_succ]
          congr 1
          omega
        omega
      have := ih (k - 1) (n / 10) hdiv (by omega) (by omega)
      simp only [List.length_append, List.length_singleton]
      omega

theorem format06_length (n : Nat) (h : n < 1000000) : (format06 n).length = 6 := by
  have h6 : (natChars n).length ≤ 6 := by
    apply decChars_length_le 20 6 n _ (by norm_num) (by norm_num)
    norm_num
    omega
  unfold format06
  show (List.replicate (6 - (natChars n).length) '0' ++ natChars n).length = 6
  simp only [List.length_append, List.length_replicate]
  omega

theorem digitChar_isDigit (d : Nat) (h : d < 10) : (Nat.digitChar d).isDigit = true := by
  interval_cases d <;> decide

theorem decChars_digits : ∀ (fuel n : Nat), ∀ c ∈ decChars fuel n, c.isDigit = true := by
  intro fuel
  induction fuel with
  | zero => intro n c hc; simp [decChars] at hc
  | succ f ih =>
    intro n c hc
    unfold decChars at hc
    by_cases h10 : n < 10
    · rw [if_pos h10] at hc
      simp at hc
      subst hc
      exact digitChar_isDigit n h10
    · rw [if_neg h10] at hc
      rcases List.mem_append.mp hc with hm | hm
      · exact ih _ _ hm
      · simp at hm
        subst hm
        exact digitChar_isDigit _ (Nat.mod_lt _ (by norm_num))

theorem format06_digits (n : Nat) : ∀ c ∈ (format06 n).data, c.isDigit = true := by
  intro c hc
  unfold format06 at hc
  replace hc : c ∈ List.replicate (6 - (natChars n).length) '0' ++ natChars n := hc
  rcases List.mem_append.mp hc with hm | hm
  · rw [List.eq_of_mem_replicate hm]
    decide
  · exact decChars_digits 20 n c hm

theorem format06_no_dash (n : Nat) : '-' ∉ (format06 n).data := by
  intro hc
  have := format06_digits n _ hc
  exact absurd this (by decide)

theorem splitDash_group (g rest : List Char) (hg : '-' ∉ g) :
    splitDash (g ++ '-' :: rest) = g :: splitDash rest := by
  induction g with
  | nil => simp [splitDash]
  | cons c gtl ih =>
    have hc : c ≠ '-' := by
      intro h
      exact hg (by simp [h])
    have hg2 : '-' ∉ gtl := fun h => hg (List.mem_cons_of_mem _ h)
    have hstep : splitDash ((c :: gtl) ++ '-' :: rest) =
        if c = '-' then [] :: splitDash (gtl ++ '-' :: rest)
        else match splitDash (gtl ++ '-' :: rest) with
          | [] => [[c]]
          | g :: gs => (c :: g) :: gs := rfl
    rw [hstep, if_neg hc, ih hg2]

theorem splitDash_last (g : List Char) (hg : '-' ∉ g) : splitDash g = [g] := by
  induction g with
  | nil => rfl
  | cons c gtl ih =>
    have hc : c ≠ '-' := by
      intro h
      exact hg (by simp [h])
    have hg2 : '-' ∉ gtl := fun h => hg (List.mem_cons_of_mem _ h)
    have hstep : splitDash (c :: gtl) =
        if c = '-' then [] :: splitDash gtl
        else match splitDash gtl with
          | [] => [[c]]
          | g :: gs => (c :: g) :: gs := rfl
    rw [hstep, if_neg hc, ih hg2]

theorem intercalate6_data (a b c d e f : String) :
    (String.intercalate "-" [a, b, c, d, e, f]).data =
      a.data ++ ('-' :: (b.data ++ ('-' :: (c.data ++ ('-' :: (d.data ++ ('-' ::
        (e.data ++ ('-' :: f.data))))))))) := by
  simp [String.intercalate, String.intercalate.go, String.data_append]

theorem intercalate6_length (a b c d e f : String) :
    (String.intercalate "-" [a, b, c, d, e, f]).length =
      a.length + b.length + c.length + d.length + e.length + f.length + 5 := by
  have h1 : "-".length = 1 := rfl
  simp [String.intercalate, String.intercalate.go, String.length_append, h1]
  omega

theorem combinedStr_length (seeds : Fin 6 → List Nat) (t w : Nat) :
    (combinedStr seeds t w).length = 41 := by
  unfold combinedStr
  rw [intercalate6_length]
  rw [format06_length _ (rawToken_lt _ _), format06_length _ (rawToken_lt _ _),
    format06_length _ (rawToken_lt _ _), format06_length _ (rawToken_lt _ _),
    format06_length _ (rawToken_lt _ _), format06_length _ (rawToken_lt _ _)]

theorem splitDash_combined (seeds : Fin 6 → List Nat) (t w : Nat) :
    splitDash (combinedStr seeds t w).data =
      [(format06 (rawToken (seeds 0) (t / w))).data,
       (format06 (rawToken (seeds 1) (t / w))).data,
       (format06 (rawToken (seeds 2) (t / w))).data,
       (format06 (rawToken (seeds 3) (t / w))).data,
       (format06 (rawToken (seeds 4) (t / w))).data,
       (format06 (rawToken (seeds 5) (t / w))).data] := by
  unfold combinedStr
  rw [intercalate6_data]
  rw [splitDash_group _ _ (format06_no_dash _), splitDash_group _ _ (format06_no_dash _),
    splitDash_group _ _ (format06_no_dash _), splitDash_group _ _ (format06_no_dash _),
    splitDash_group _ _ (format06_no_dash _), splitDash_last _ (format06_no_dash _)]

/-! ## Digest shape lemmas and the RFC 4226 reference (spec §4.1) -/

theorem word4_length (n : Nat) : (word4 n).length = 4 := rfl

theorem word4_lt (n : Nat) : ∀ b ∈ word4 n, b < 256 := by
  intro b hb
  simp only [word4, List.mem_cons, List.not_mem_nil, or_false] at hb
  rcases hb with rfl | rfl | rfl | rfl <;> exact Nat.lt_succ_of_le Nat.and_le_right

theorem sha1_length (msg : List Nat) : (sha1 msg).length = 20 := by
  simp only [sha1, List.length_append, word4_length]

theorem sha1_lt (msg : List Nat) : ∀ b ∈ sha1 msg, b < 256 := by
  intro b hb
  simp only [sha1, List.mem_append] at hb
  rcases hb with (((hb | hb) | hb) | hb) | hb <;> exact word4_lt _ _ hb

theorem hmacSha1_length (key msg : List Nat) : (hmacSha1 key msg).length = 20 := by
  simp only [hmacSha1]
  exact sha1_length _

theorem hmacSha1_lt (key msg : List Nat) : ∀ b ∈ hmacSha1 key msg, b < 256 := by
  simp only [hmacSha1]
  exact sha1_lt _

theorem hmacSha1_getD_lt (key msg : List Nat) (i : Nat) :
    (hmacSha1 key msg).getD i 0 < 256 := by
  by_cases h : i < (hmacSha1 key msg).length
  · rw [List.getD_eq_get _ 0 h]
    exact hmacSha1_lt key msg _ (List.get_mem _ _ _)
  · rw [List.getD_eq_default _ 0 (Nat.le_of_not_lt h)]
    norm_num

theorem and255_eq (x : Nat) (h : x < 256) : x &&& 255 = x := by
  have h2 := Nat.and_pow_two_sub_one_eq_mod x 8
  norm_num at h2
  rw [h2]
  exact Nat.mod_eq_of_lt h

theorem format06_rawToken_eq_rfc (seed : List Nat) (time window : Nat) :
    format06 (rawToken seed (time / window)) =
      rfc4226_reference_token seed time window := by
  have h19 : (hmacSha1 seed (be8 (time / window))).length - 1 = 19 := by
    rw [hmacSha1_length]
  have hm : ∀ i : Nat, (hmacSha1 seed (be8 (time / window))).getD i 0 &&& 255 =
      (hmacSha1 seed (be8 (time / window))).getD i 0 :=
    fun i => and255_eq _ (hmacSha1_getD_lt _ _ i)
  unfold rawToken rfc4226_reference_token
  simp only [h19, hm]

/-! ## Claim theorems -/

/-- C1: for every seed (any byte string, including empty), every time, and
every window > 0, the single per-seed token (as formatted: zero-padded
6-digit decimal) equals the RFC 4226 dynamic-truncation reference
computation described by the spec: counter = time / window, HMAC-SHA1 of
the 8-byte big-endian counter keyed by the seed, offset = low nibble of
the last digest byte, 4 bytes at offset composed big-endian with the top
bit masked, reduced mod 1_000_000. -/
theorem C1_token_matches_rfc4226 (seed : List Nat) (time window : Nat)
    (hw : 0 < window) :
    ∃ n, generate_token seed time window = some n ∧
      format06 n = rfc4226_reference_token seed time window :=
  ⟨_, generate_token_pos _ _ _ hw, format06_rawToken_eq_rfc _ _ _⟩

/-- C1 witness: instantiation at the empty seed, time 0, window 1. -/
theorem C1_token_matches_rfc4226_witness :
    0 < 1 ∧ ∃ n, generate_token [] 0 1 = some n ∧
      format06 n = rfc4226_reference_token [] 0 1 :=
  ⟨by decide, C1_token_matches_rfc4226 [] 0 1 (by decide)⟩

/-- C2: round-trip: for every six seeds, time, window > 0, unit string and
allowed_windows n ≥ 1, verifying the freshly generated compound token at
the same time succeeds. -/
theorem C2_round_trip (seeds : Fin 6 → List Nat) (t w n : Nat) (u : String)
    (hw : 0 < w) (hn : 1 ≤ n) :
    ∃ T, generate_combined_token seeds t w = some T ∧
      verify_combined_token seeds t T w n u = some true := by
  refine ⟨_, generate_combined_pos _ _ _ hw, ?_⟩
  unfold verify_combined_token
  refine (verifyLoop_true_iff _ _ _ _ _ hw _).mpr ⟨0, ?_, ?_⟩
  · rw [steps_eq_cons n]
    exact List.mem_cons_self _ _
  · rw [adjusted_time_zero]

/-- C2 witness: instantiation at six empty seeds, t = 0, w = 1, n = 1. -/
theorem C2_round_trip_witness :
    0 < 1 ∧ 1 ≤ 1 ∧ ∃ T, generate_combined_token (fun _ => []) 0 1 = some T ∧
      verify_combined_token (fun _ => []) 0 T 1 1 "s" = some true :=
  ⟨by decide, by decide, C2_round_trip (fun _ => []) 0 1 1 "s" (by decide) (by decide)⟩

/-- C4: the claim says window == 0 is rejected before the division with an
explicit input-validation failure instead of a crash. The code has no such
guard: `time / window` in `generate_token` is unguarded and Rust `u64`
division by zero panics (`none` in this embedding models that panic, both
for generation and, through the regeneration inside the loop, for
verification). -/
theorem C4_window_zero_panics :
    generate_token [] 5 0 = none ∧
    generate_combined_token (fun _ => []) 5 0 = none ∧
    verify_combined_token (fun _ => []) 5 "000000" 0 1 "s" = none := by
  refine ⟨rfl, rfl, rfl⟩

/-- C5: the verifier tries exactly offsets [0] for allowed_windows 0 or 1
and [0, 1, -1, ..., n-1, -(n-1)] otherwise; it returns the first-match
search verdict (true iff some offset regenerates the candidate exactly);
allowed_windows 0 and 1 coincide on every input. -/
theorem C5_offset_list (seeds : Fin 6 → List Nat) (t : Nat) (tok : String)
    (w n : Nat) (u : String) (hw : 0 < w) :
    steps 0 = [0] ∧ steps 1 = [0] ∧
    (2 ≤ n → steps n =
      0 :: (List.range (n - 1)).flatMap (fun i => [(i : Int) + 1, -((i : Int) + 1)])) ∧
    (verify_combined_token seeds t tok w n u =
      some ((steps n).any fun s =>
        decide (combinedStr seeds (adjusted_time t s w (deltaOf u)) w = tok))) ∧
    (verify_combined_token seeds t tok w n u = some true ↔
      ∃ s ∈ steps n,
        generate_combined_token seeds (adjusted_time t s w (deltaOf u)) w = some tok) ∧
    verify_combined_token seeds t tok w 0 u = verify_combined_token seeds t tok w 1 u := by
  refine ⟨rfl, rfl, ?_, ?_, ?_, rfl⟩
  · intro h2
    match n, h2 with
    | m + 2, _ => rfl
  · unfold verify_combined_token
    exact verifyLoop_eq_any _ _ _ _ _ hw _
  · unfold verify_combined_token
    rw [verifyLoop_true_iff _ _ _ _ _ hw]
    apply exists_congr
    intro s
    constructor
    · rintro ⟨hs, heq⟩
      exact ⟨hs, by rw [generate_combined_pos _ _ _ hw, heq]⟩
    · rintro ⟨hs, heq⟩
      refine ⟨hs, ?_⟩
      rw [generate_combined_pos _ _ _ hw] at heq
      exact Option.some.inj heq

/-- C5 witness: instantiation at six empty seeds, t = 0, tok = "", w = 1,
n = 3, u = "s". -/
theorem C5_offset_list_witness :
    0 < 1 ∧
    (steps 0 = [0] ∧ steps 1 = [0] ∧
    (2 ≤ 3 → steps 3 =
      0 :: (List.range (3 - 1)).flatMap (fun i => [(i : Int) + 1, -((i : Int) + 1)])) ∧
    (verify_combined_token (fun _ => []) 0 "" 1 3 "s" =
      some ((steps 3).any fun s =>
        decide (combinedStr (fun _ => []) (adjusted_time 0 s 1 (deltaOf "s")) 1 = ""))) ∧
    (verify_combined_token (fun _ => []) 0 "" 1 3 "s" = some true ↔
      ∃ s ∈ steps 3,
        generate_combined_token (fun _ => []) (adjusted_time 0 s 1 (deltaOf "s")) 1
          = some "") ∧
    verify_combined_token (fun _ => []) 0 "" 1 0 "s" =
      verify_combined_token (fun _ => []) 0 "" 1 1 "s") :=
  ⟨by decide, C5_offset_list (fun _ => []) 0 "" 1 3 "s" (by decide)⟩

/-- C6 counterexample: the claim says that on overflow/underflow the
adjusted time saturates or the step is treated as unreachable. At
time = 0, step = -1, window = 1 the true adjusted value -1 underflows;
the code wraps it to 2^64 - 1 (not the saturated value 0), and step -1 is
in the tried list for allowed_windows = 2, so it is used, not skipped. -/
theorem C6_adjusted_time_counterexample :
    adjusted_time 0 (-1) 1 (deltaOf "s") = 18446744073709551615 ∧
    adjusted_time 0 (-1) 1 (deltaOf "s") ≠ 0 ∧
    18446744073709551615 = u64Mod - 1 ∧
    (-1 : Int) ∈ steps 2 := by
  refine ⟨by decide, by decide, by decide, by decide⟩

/-- C6 (amended): the adjusted time is computed with wrapping (modular)
arithmetic and never faults: for every in-range time, every step and every
window, the verifier's adjusted time equals
(time + step * window) mod 2^64. -/
theorem C6_adjusted_time_wraps (time : Nat) (step : Int) (window : Nat)
    (u : String) (ht : time < u64Mod) :
    adjusted_time time step window (deltaOf u) =
      (((time : Int) + step * (window : Int)) % (u64Mod : Int)).toNat := by
  rw [deltaOf_eq_one, adjusted_time_eq time step window 1 ht]
  have hmul : ((window * 1 : Nat) : Int) = (window : Int) := by
    push_cast
    ring
  rw [hmul]

/-- C6 amended witness: instantiation at time 0, step -1, window 1. -/
theorem C6_adjusted_time_wraps_witness :
    0 < u64Mod ∧
    adjusted_time 0 (-1) 1 (deltaOf "s") =
      ((((0 : Nat) : Int) + (-1) * ((1 : Nat) : Int)) % ((u64Mod : Nat) : Int)).toNat :=
  ⟨by decide, C6_adjusted_time_wraps 0 (-1) 1 "s" (by decide)⟩

/-- C8: the unit parameter is inert: verification returns the same result
for any two unit strings, all other arguments equal. -/
theorem C8_unit_inert (seeds : Fin 6 → List Nat) (t : Nat) (tok : String)
    (w n : Nat) (u1 u2 : String) :
    verify_combined_token seeds t tok w n u1 =
      verify_combined_token seeds t tok w n u2 := by
  unfold verify_combined_token
  rw [deltaOf_eq_one, deltaOf_eq_one]

/-- C9: seed sensitivity, frame half: if two six-seed arrays agree on every
seed except possibly the i-th, the compound tokens they generate agree on
every 6-digit group other than the i-th. -/
theorem C9_seed_frame (seeds1 seeds2 : Fin 6 → List Nat) (i : Fin 6) (t w : Nat)
    (hw : 0 < w) (hagree : ∀ j : Fin 6, j ≠ i → seeds1 j = seeds2 j) :
    ∃ s1 s2, generate_combined_token seeds1 t w = some s1 ∧
      generate_combined_token seeds2 t w = some s2 ∧
      ∀ j : Fin 6, j ≠ i →
        (splitDash s1.data).getD j.val [] = (splitDash s2.data).getD j.val [] := by
  refine ⟨_, _, generate_combined_pos _ _ _ hw, generate_combined_pos _ _ _ hw, ?_⟩
  intro j hj
  rw [splitDash_combined, splitDash_combined]
  rcases j with ⟨jv, hjlt⟩
  interval_cases jv <;>
    simp only [List.getD_cons_zero, List.getD_cons_succ] <;>
    exact congrArg (fun s => (format06 (rawToken s (t / w))).data) (hagree _ (by exact hj))

/-- C9 witness: both seed arrays all-empty, i = 0, t = 0, w = 1. -/
theorem C9_seed_frame_witness :
    0 < 1 ∧
    ∃ s1 s2, generate_combined_token (fun _ => []) 0 1 = some s1 ∧
      generate_combined_token (fun _ => []) 0 1 = some s2 ∧
      ∀ j : Fin 6, j ≠ (0 : Fin 6) →
        (splitDash s1.data).getD j.val [] = (splitDash s2.data).getD j.val [] :=
  ⟨by decide,
    C9_seed_frame (fun _ => []) (fun _ => []) 0 0 1 (by decide) (fun _ _ => rfl)⟩

/-! ## Concrete token evaluations (kernel-checked) -/

theorem rawToken_empty_0 : rawToken [] 0 = 328482 := by decide

theorem rawToken_empty_1 : rawToken [] 1 = 812658 := by decide

theorem rawToken_empty_max : rawToken [] 18446744073709551615 = 566304 := by decide

theorem combined_empty_0 :
    combinedStr (fun _ => []) 0 1 = "328482-328482-328482-328482-328482-328482" := by
  unfold combinedStr
  simp only [Nat.div_one, rawToken_empty_0]
  decide

theorem combined_empty_1 :
    combinedStr (fun _ => []) 1 1 = "812658-812658-812658-812658-812658-812658" := by
  unfold combinedStr
  simp only [Nat.div_one, rawToken_empty_1]
  decide

theorem combined_empty_max :
    combinedStr (fun _ => []) 18446744073709551615 1 =
      "566304-566304-566304-566304-566304-566304" := by
  unfold combinedStr
  simp only [Nat.div_one, rawToken_empty_max]
  decide

/-- C3 counterexample: with all six seeds empty, window w = 1, current time
t = 0, allowed_windows n = 2, and k = 2^64 - 1 (so t + k*w = 2^64 - 1 and
|k| ≥ n), the token generated at t + k*w is accepted by the verifier: the
step -1 wraps time 0 around to 2^64 - 1. The claim requires verification
to return false whenever |k| ≥ n. -/
theorem C3_drift_counterexample :
    generate_combined_token (fun _ => []) 18446744073709551615 1 =
      some "566304-566304-566304-566304-566304-566304" ∧
    (18446744073709551615 : Int).natAbs ≥ 2 ∧
    (0 : Int) + 18446744073709551615 * 1 = (18446744073709551615 : Int) ∧
    verify_combined_token (fun _ => [])
      0 "566304-566304-566304-566304-566304-566304" 1 2 "s" = some true := by
  refine ⟨?_, by norm_num, by norm_num, ?_⟩
  · rw [generate_combined_pos _ _ _ (by norm_num), combined_empty_max]
  · unfold verify_combined_token
    rw [verifyLoop_eq_any _ _ _ _ _ (by norm_num)]
    have hsteps : steps 2 = [0, 1, -1] := by decide
    rw [hsteps]
    simp only [List.any_cons, List.any_nil]
    rw [adjusted_time_zero]
    have e1 : adjusted_time 0 1 1 (deltaOf "s") = 1 := by decide
    have e2 : adjusted_time 0 (-1) 1 (deltaOf "s") = 18446744073709551615 := by decide
    rw [e1, e2, combined_empty_0, combined_empty_1, combined_empty_max]
    decide

/-- C3 (amended): the forward half holds within the u64 range: for window
w > 0, allowed_windows n ≥ 1 and any integer k with |k| ≤ n - 1 such that
t + k*w stays inside [0, 2^64), the token generated at t + k*w verifies
against current time t. The converse direction of the claim (must fail for
|k| ≥ n) does not hold because adjusted times wrap modulo 2^64. -/
theorem C3_drift_tolerance_forward (seeds : Fin 6 → List Nat) (t w n : Nat)
    (k : Int) (u : String) (hw : 0 < w) (hn : 1 ≤ n) (ht : t < u64Mod)
    (hk : k.natAbs ≤ n - 1) (hlo : 0 ≤ (t : Int) + k * (w : Int))
    (hhi : (t : Int) + k * (w : Int) < (u64Mod : Int)) :
    ∃ T, generate_combined_token seeds ((t : Int) + k * (w : Int)).toNat w = some T ∧
      verify_combined_token seeds t T w n u = some true := by
  refine ⟨_, generate_combined_pos _ _ _ hw, ?_⟩
  unfold verify_combined_token
  refine (verifyLoop_true_iff _ _ _ _ _ hw _).mpr
    ⟨k, (mem_steps_iff n hn k).mpr hk, ?_⟩
  have hadj : adjusted_time t k w (deltaOf u) = ((t : Int) + k * (w : Int)).toNat := by
    rw [deltaOf_eq_one, adjusted_time_eq t k w 1 ht]
    have hmul : ((w * 1 : Nat) : Int) = (w : Int) := by
      push_cast
      ring
    rw [hmul, Int.emod_eq_of_lt hlo hhi]
  rw [hadj]

/-- C3 amended witness: six empty seeds, t = 5, w = 1, n = 2, k = 1. -/
theorem C3_drift_tolerance_forward_witness :
    0 < 1 ∧ 1 ≤ 2 ∧ 5 < u64Mod ∧ (1 : Int).natAbs ≤ 2 - 1 ∧
    0 ≤ ((5 : Nat) : Int) + 1 * ((1 : Nat) : Int) ∧
    ((5 : Nat) : Int) + 1 * ((1 : Nat) : Int) < ((u64Mod : Nat) : Int) ∧
    (∃ T, generate_combined_token (fun _ => [])
        ((((5 : Nat) : Int) + 1 * ((1 : Nat) : Int)).toNat) 1 = some T ∧
      verify_combined_token (fun _ => []) 5 T 1 2 "s" = some true) :=
  ⟨by decide, by decide, by decide, by decide, by decide, by decide,
    C3_drift_tolerance_forward (fun _ => []) 5 1 2 1 "s" (by decide) (by decide)
      (by decide) (by decide) (by decide) (by decide)⟩

/-- C7 counterexample: a compound token has 41 characters (six 6-digit
groups and five separators), not 35 as the claim states. -/
theorem C7_format_counterexample :
    generate_combined_token (fun _ => []) 0 1 =
      some "328482-328482-328482-328482-328482-328482" ∧
    "328482-328482-328482-328482-328482-328482".length = 41 ∧
    "328482-328482-328482-328482-328482-328482".length ≠ 35 := by
  refine ⟨?_, by decide, by decide⟩
  rw [generate_combined_pos _ _ _ (by norm_num), combined_empty_0]

/-- C7 (amended): for window > 0 the compound token consists of exactly six
groups of exactly six decimal digits joined by '-', for a total length of
exactly 41 characters (not 35). -/
theorem C7_compound_format (seeds : Fin 6 → List Nat) (t w : Nat) (hw : 0 < w) :
    ∃ s, generate_combined_token seeds t w = some s ∧
      s.length = 41 ∧ (splitDash s.data).length = 6 ∧
      ∀ g ∈ splitDash s.data, g.length = 6 ∧ ∀ c ∈ g, c.isDigit = true := by
  refine ⟨_, generate_combined_pos _ _ _ hw, combinedStr_length _ _ _, ?_, ?_⟩
  · rw [splitDash_combined]
    rfl
  · rw [splitDash_combined]
    intro g hg
    simp only [List.mem_cons, List.not_mem_nil, or_false] at hg
    rcases hg with rfl | rfl | rfl | rfl | rfl | rfl <;>
      exact ⟨format06_length _ (rawToken_lt _ _), format06_digits _⟩

/-- C7 amended witness: six empty seeds, t = 0, w = 1. -/
theorem C7_compound_format_witness :
    0 < 1 ∧
    ∃ s, generate_combined_token (fun _ => []) 0 1 = some s ∧
      s.length = 41 ∧ (splitDash s.data).length = 6 ∧
      ∀ g ∈ splitDash s.data, g.length = 6 ∧ ∀ c ∈ g, c.isDigit = true :=
  ⟨by decide, C7_compound_format (fun _ => []) 0 1 (by decide)⟩

/-- C10 counterexample: regenerated compound tokens have length 41, not 35,
so a valid candidate of length 41 ≠ 35 verifies true, contradicting the
claim that any candidate whose length is not 35 is rejected. -/
theorem C10_length_counterexample :
    "328482-328482-328482-328482-328482-328482".length ≠ 35 ∧
    verify_combined_token (fun _ => [])
      0 "328482-328482-328482-328482-328482-328482" 1 1 "s" = some true := by
  refine ⟨by decide, ?_⟩
  unfold verify_combined_token
  rw [verifyLoop_eq_any _ _ _ _ _ (by norm_num)]
  have hsteps : steps 1 = [0] := rfl
  rw [hsteps]
  simp only [List.any_cons, List.any_nil]
  rw [adjusted_time_zero, combined_empty_0]
  decide

/-- C10 (amended): every regenerated compound token has length 41 and the
comparison is exact string equality, so for window > 0 a candidate whose
length is not 41 always yields verification false. -/
theorem C10_length_guard (seeds : Fin 6 → List Nat) (t : Nat) (tok : String)
    (w n : Nat) (u : String) (hw : 0 < w) (hlen : tok.length ≠ 41) :
    verify_combined_token seeds t tok w n u = some false := by
  unfold verify_combined_token
  rw [verifyLoop_eq_any _ _ _ _ _ hw]
  congr 1
  rw [List.any_eq_false]
  intro s hs hdec
  have heq := of_decide_eq_true hdec
  rw [← heq] at hlen
  exact hlen (combinedStr_length _ _ _)

/-- C10 amended witness: candidate "x" of length 1. -/
theorem C10_length_guard_witness :
    0 < 1 ∧ "x".length ≠ 41 ∧
    verify_combined_token (fun _ => []) 0 "x" 1 1 "s" = some false :=
  ⟨by decide, by decide,
    C10_length_guard (fun _ => []) 0 "x" 1 1 "s" (by decide) (by decide)⟩
